import Mathlib

/-!
Verification of the CSV-parsing / aggregation / picker-evaluation core of the
Powerball dashboard (`src/App.jsx`).

Modelling conventions:
* JS strings are modelled as `List Char` (`Str`); the structural string
  helpers below (`jsTrim`, `splitOnL`, `splitLines`, `stripEdgeQuotes`)
  mirror `String.prototype.trim`, `String.prototype.split` on a literal
  separator, `split(/\r?\n/)` and `replace(/^"|"$/g, '')`.
* JS numbers are modelled by `ℚ`; a value of type `Option ℚ` stands for a
  JS number where `none` is a non-finite value (`NaN` or an infinity), so
  `Number.isFinite` is `Option.isSome`.
* The host functions the component calls — `new Date(...)` together with
  `Date.prototype.getTime`, `Date.prototype.toLocaleDateString`, and the
  `Number` coercion — are parameters (`Host`); `jsNumDec` is a concrete
  faithful model of the `Number` coercion on plain decimal strings (used to
  instantiate concrete test inputs; it returns `none`, i.e. NaN, outside
  that subset).
* `Array.prototype.sort` (a stable sort by a numeric comparator in modern
  engines) is modelled by `List.mergeSort` on the comparator's "≤" relation.
-/

/-- JS strings, modelled as lists of characters. -/
abbrev Str := List Char

/-- The whitespace class trimmed by `String.prototype.trim` (ASCII part plus
NBSP and the BOM; exotic Unicode space separators are not modelled). -/
def jsWhitespaceChar (c : Char) : Bool :=
  c = ' ' || c = '\t' || c = '\n' || c = '\r' || c = '\x0b' || c = '\x0c' ||
  c.toNat = 160 || c.toNat = 65279

/-- Model of `String.prototype.trim`. -/
def jsTrim (s : Str) : Str :=
  ((s.dropWhile jsWhitespaceChar).reverse.dropWhile jsWhitespaceChar).reverse

/-- Worker for `splitLines`; `fuel` bounds the recursion depth and is always
at least the length of the remaining input. Models `split(/\r?\n/)`: a
separator is either `"\r\n"` or `"\n"`, a lone `"\r"` separates nothing. -/
def splitLinesGo : Nat → Str → Str → List Str
  | 0, cur, _ => [cur.reverse]
  | _ + 1, cur, [] => [cur.reverse]
  | fuel + 1, cur, '\r' :: '\n' :: rest => cur.reverse :: splitLinesGo fuel [] rest
  | fuel + 1, cur, '\n' :: rest => cur.reverse :: splitLinesGo fuel [] rest
  | fuel + 1, cur, c :: rest => splitLinesGo fuel (c :: cur) rest

/-- Model of `text.split(/\r?\n/)`. -/
def splitLines (s : Str) : List Str :=
  splitLinesGo s.length [] s

/-- Worker for `splitOnL`; `fuel` bounds the recursion depth. -/
def splitOnGo (sep : Str) : Nat → Str → Str → List Str
  | 0, cur, _ => [cur.reverse]
  | _ + 1, cur, [] => [cur.reverse]
  | fuel + 1, cur, c :: rest =>
    if sep.isPrefixOf (c :: rest) then
      cur.reverse :: splitOnGo sep fuel [] (List.drop sep.length (c :: rest))
    else
      splitOnGo sep fuel (c :: cur) rest

/-- Model of `String.prototype.split` with a non-empty literal separator. -/
def splitOnL (sep s : Str) : List Str :=
  splitOnGo sep s.length [] s

/-- Model of `line.replace(/^"|"$/g, '')`: removes one leading and one
trailing double quote when present. -/
def stripEdgeQuotes (s : Str) : Str :=
  let s1 := match s with
    | '"' :: rest => rest
    | other => other
  match s1.getLast? with
  | some '"' => s1.dropLast
  | _ => s1

/-- The digit-run value of a string of decimal digits; `none` when the list
is empty or contains a non-digit. -/
def decDigits? (l : Str) : Option Nat :=
  if l ≠ [] ∧ l.all Char.isDigit then
    some (l.foldl (fun a c => 10 * a + (c.toNat - 48)) 0)
  else none

/-- Concrete model of the JS `Number` coercion on plain decimal strings:
whitespace-trimmed, empty means `0`, an optional sign followed by digits
with an optional fractional part. Exponent, hexadecimal and `Infinity`
forms are not modelled and yield `none` (treated like NaN, which is also
non-finite, matching every use site: `Number.isFinite` filters and
validity checks). -/
def jsNumDec (s : Str) : Option ℚ :=
  let t := jsTrim s
  if t = [] then some 0
  else
    let signed : Bool × Str :=
      match t with
      | '-' :: r => (true, r)
      | '+' :: r => (false, r)
      | other => (false, other)
    let neg := signed.1
    let u := signed.2
    match splitOnL ['.'] u with
    | [w] =>
      (decDigits? w).map (fun m =>
        ((if neg then -(m : ℤ) else (m : ℤ) : ℤ) : ℚ))
    | [w, f] =>
      if w = [] ∧ f = [] then none
      else
        match (if w = [] then some 0 else decDigits? w),
              (if f = [] then some 0 else decDigits? f) with
        | some a, some b =>
          some ((((if neg then -(a * 10 ^ f.length + b : ℤ)
                   else (a * 10 ^ f.length + b : ℤ) : ℤ)) : ℚ) /
                (((10 : ℕ) ^ f.length : ℕ) : ℚ))
        | _, _ => none
    | _ => none

/-- The host (browser runtime) functions the component calls:
`parseDate s` is `new Date(s).getTime()` with `none` for an invalid date
(`NaN` timestamp); `dateLabel t` is
`new Date(t).toLocaleDateString('en-US', …)`; `num` is the `Number`
coercion (`none` = non-finite result). Theorems about the parser and the
picker quantify over the host, so they hold for the actual browser
implementations. -/
structure Host where
  parseDate : Str → Option ℤ
  dateLabel : ℤ → Str
  num : Str → Option ℚ

/-- One parsed lottery record (`parseCsv`'s row object): `multiplier` is
`none` for JS `null`, `some x` for a JS number `x` (itself `none` when
non-finite). `powerball` is `none` for JS `null`. -/
structure Draw where
  dateMs : ℤ
  dateLabel : Str
  mainNumbers : List ℚ
  powerball : Option ℚ
  multiplier : Option (Option ℚ)
  mainSum : ℚ

/-- Field extraction of one data line:
`line.replace(/^"|"$/g, '').split('","').map(v => v.trim())`. -/
def splitFields (line : Str) : List Str :=
  (splitOnL ['"', ',', '"'] (stripEdgeQuotes line)).map jsTrim

/-- `rawDate` of the destructuring `[rawDate, winningNumbers = '', multiplierValue]`
(`splitOnL` always returns a non-empty list, and a missing entry is only
ever tested for falsiness, so the empty string stands in for `undefined`). -/
def rawDateField (line : Str) : Str :=
  (splitFields line).getD 0 []

/-- `winningNumbers` of the destructuring, with its `= ''` default. -/
def winningField (line : Str) : Str :=
  (splitFields line).getD 1 []

/-- `multiplierValue` of the destructuring: `none` when the third field is
absent (`undefined`). -/
def multiplierField (line : Str) : Option Str :=
  (splitFields line).get? 2

/-- `winningNumbers.split(' ').map(Number).filter(Number.isFinite)`. -/
def rowNumbers (H : Host) (line : Str) : List ℚ :=
  (splitOnL [' '] (winningField line)).filterMap H.num

/-- Parse of one data line to an optional record — the body of the `.map`
in `parseCsv`; `none` is the JS `null` for a dropped row. -/
def parseRow (H : Host) (line : Str) : Option Draw :=
  let rawDate := rawDateField line
  let winningNumbers := winningField line
  if rawDate = [] ∨ winningNumbers = [] then none
  else
    match H.parseDate rawDate with
    | none => none
    | some dateMs =>
      let numbers := rowNumbers H line
      if numbers = [] then none
      else
        let powerball := numbers.getLast?
        let mainNumbers := if powerball ≠ none then numbers.dropLast else numbers
        let multiplier : Option (Option ℚ) :=
          match multiplierField line with
          | none => none
          | some v => if v = [] then none else some (H.num v)
        some ⟨dateMs, H.dateLabel dateMs, mainNumbers, powerball, multiplier,
              mainNumbers.foldl (fun sum value => sum + value) 0⟩

/-- The data lines: `text.trim().split(/\r?\n/)` with the header removed
by `lines.slice(1)`. -/
def dataLines (text : Str) : List Str :=
  (splitLines (jsTrim text)).drop 1

/-- The record list before the final sort:
`dataLines.map(trim).filter(Boolean).map(parse).filter(Boolean)`. -/
def parsedRows (H : Host) (text : Str) : List Draw :=
  (((dataLines text).map jsTrim).filter (fun l => !l.isEmpty)).filterMap (parseRow H)

/-- The `(a, b) => a.dateMs - b.dateMs` comparator's "≤" relation. -/
def drawLe (a b : Draw) : Bool :=
  a.dateMs ≤ b.dateMs

/-- `parseCsv`: data lines, trimmed, non-empty, parsed, non-null, sorted
ascending by `dateMs`. -/
def parseCsv (H : Host) (text : Str) : List Draw :=
  (parsedRows H text).mergeSort drawLe

/-- `MAIN_RANGE` / `POWERBALL_RANGE` bounds (integer constants). -/
structure NumberRange where
  lo : ℤ
  hi : ℤ

/-- `MAIN_RANGE = { min: 1, max: 69 }`. -/
def MAIN_RANGE : NumberRange := ⟨1, 69⟩

/-- `POWERBALL_RANGE = { min: 1, max: 26 }`. -/
def POWERBALL_RANGE : NumberRange := ⟨1, 26⟩

/-- `clampInput`: empty input stays empty, a non-finite `Number` result
yields the empty string, otherwise
`Math.max(MAIN_RANGE.min, Math.min(max, Math.floor(numeric))).toString()`. -/
def clampInput (num : Str → Option ℚ) (rawValue : Str) (mx : ℤ) : Str :=
  if rawValue = [] then []
  else
    match num rawValue with
    | none => []
    | some numeric => (toString (max MAIN_RANGE.lo (min mx ⌊numeric⌋))).data

/-- Truncation toward zero (the spec's reading of the clamp). -/
def jsTrunc (q : ℚ) : ℤ :=
  if q < 0 then ⌈q⌉ else ⌊q⌋

/-- `Math.round`: round half toward positive infinity. -/
def jsRound (q : ℚ) : ℤ :=
  ⌊q + 1 / 2⌋

/-- `numericMain`: the pick values that are finite and within
`MAIN_RANGE` (kept in input order). -/
def numericMainOf (num : Str → Option ℚ) (mainPick : List Str) : List ℚ :=
  mainPick.filterMap (fun value =>
    match num value with
    | some numeric =>
      if (MAIN_RANGE.lo : ℚ) ≤ numeric ∧ numeric ≤ (MAIN_RANGE.hi : ℚ) then
        some numeric
      else none
    | none => none)

/-- `hasFullSet`: `numericMain.length === 5`. -/
def hasFullSetFlag (num : Str → Option ℚ) (mainPick : List Str) : Bool :=
  (numericMainOf num mainPick).length == 5

/-- `hasDuplicates`: `new Set(numericMain).size !== numericMain.length`. -/
def hasDuplicatesFlag (num : Str → Option ℚ) (mainPick : List Str) : Bool :=
  (numericMainOf num mainPick).dedup.length != (numericMainOf num mainPick).length

/-- `validPowerball`: finite and within `POWERBALL_RANGE`. -/
def validPowerballFlag (num : Str → Option ℚ) (powerballPick : Str) : Bool :=
  match num powerballPick with
  | some q => decide ((POWERBALL_RANGE.lo : ℚ) ≤ q) && decide (q ≤ (POWERBALL_RANGE.hi : ℚ))
  | none => false

/-- The pick-validity part of `ready` (everything except a non-empty
history). -/
def validPickFlag (num : Str → Option ℚ) (mainPick : List Str) (powerballPick : Str) : Bool :=
  hasFullSetFlag num mainPick && !hasDuplicatesFlag num mainPick &&
    validPowerballFlag num powerballPick

/-- `ready = hasFullSet && !hasDuplicates && validPowerball && draws.length > 0`. -/
def readyFlag (num : Str → Option ℚ) (draws : List Draw) (mainPick : List Str)
    (powerballPick : Str) : Bool :=
  validPickFlag num mainPick powerballPick && decide (0 < draws.length)

/-- A record annotated by the picker: `{ ...draw, mainMatches, powerballMatch }`. -/
structure AnnotatedDraw extends Draw where
  mainMatches : ℕ
  powerballMatch : Bool

/-- Annotation of one record against the pick: `mainMatches` counts the
record's main numbers present in the pick set; `powerballMatch` is strict
equality with the pick's Powerball (`null === x` and `NaN === x` are
false). -/
def annotateDraw (numericMain : List ℚ) (pbOpt : Option ℚ) (d : Draw) : AnnotatedDraw :=
  ⟨d,
   d.mainNumbers.foldl (fun count number => count + if number ∈ numericMain then 1 else 0) 0,
   match pbOpt with
   | some q => decide (d.powerball = some q)
   | none => false⟩

/-- `annotatedDraws`: every historical record annotated against the pick. -/
def annotatedHistory (num : Str → Option ℚ) (draws : List Draw) (mainPick : List Str)
    (powerballPick : Str) : List AnnotatedDraw :=
  draws.map (annotateDraw (numericMainOf num mainPick) (num powerballPick))

/-- The best-draws comparator's "≤" relation: `mainMatches` descending,
then `powerballMatch` true before false, then `dateMs` descending. -/
def rankLe (a b : AnnotatedDraw) : Bool :=
  if a.mainMatches ≠ b.mainMatches then decide (b.mainMatches < a.mainMatches)
  else if a.powerballMatch ≠ b.powerballMatch then a.powerballMatch
  else decide (b.dateMs ≤ a.dateMs)

/-- The object returned by the `pickAnalysis` memo. -/
structure PickResult where
  ready : Bool
  hasDuplicates : Bool
  missingMain : Bool
  invalidPowerball : Bool
  jackpotHits : List AnnotatedDraw
  bestDraws : List AnnotatedDraw
  numericMain : List ℚ
  powerballNumeric : Option ℚ

/-- The picker evaluator (`pickAnalysis` memo body). -/
def pickAnalysis (num : Str → Option ℚ) (draws : List Draw) (mainPick : List Str)
    (powerballPick : Str) : PickResult :=
  let numericMain := numericMainOf num mainPick
  let pbOpt := num powerballPick
  let hasDuplicates := hasDuplicatesFlag num mainPick
  let hasFullSet := hasFullSetFlag num mainPick
  let validPowerball := validPowerballFlag num powerballPick
  if readyFlag num draws mainPick powerballPick then
    let annotated := annotatedHistory num draws mainPick powerballPick
    ⟨true, false, false, false,
     annotated.filter (fun d => d.mainMatches == 5 && d.powerballMatch),
     (annotated.mergeSort rankLe).take 3,
     numericMain, pbOpt⟩
  else
    ⟨false, hasDuplicates, !hasFullSet, !validPowerball, [], [],
     numericMain, if validPowerball then pbOpt else none⟩

/-- Status line for a duplicated pick (picker results JSX). -/
def msgDuplicates : Str := "Use five unique main numbers to check a ticket.".data

/-- Status line for an incomplete pick. -/
def msgMissingMain : Str := "Enter all five main numbers to see if you ever hit a jackpot.".data

/-- Status line for an invalid Powerball. -/
def msgInvalidPowerball : Str := "Add a valid Powerball number (1-26).".data

/-- The single status message rendered by the picker results block when the
pick is not ready: duplicates first, then missing count, then Powerball
validity; nothing otherwise. -/
def pickStatusMessage (R : PickResult) : Option Str :=
  if R.ready then none
  else if R.hasDuplicates then some msgDuplicates
  else if R.missingMain then some msgMissingMain
  else if R.invalidPowerball then some msgInvalidPowerball
  else none

/-- `FrequencyEntry`: `{ label: zero-padded string, hits }`. -/
structure FrequencyEntry where
  label : Str
  hits : ℕ

/-- `mostCommonMultiplier`'s shape: `{ value, hits }` where `value` is the
raw multiplier number (`none` = non-finite). -/
structure MultiplierEntry where
  value : Option ℚ
  hits : ℕ

/-- The object returned by the aggregates memo. -/
structure Aggregates where
  totalDraws : ℕ
  averageMainSum : Option ℤ
  topMainNumbers : List FrequencyEntry
  topPowerballNumbers : List FrequencyEntry
  mostCommonMain : Option FrequencyEntry
  mostCommonPowerball : Option FrequencyEntry
  mostCommonMultiplier : Option MultiplierEntry

/-- `map.set(k, (map.get(k) ?? 0) + 1)` on an insertion-ordered map
(JS `Map` preserves first-insertion order on update). -/
def mapBump {κ : Type} [DecidableEq κ] : List (κ × ℕ) → κ → List (κ × ℕ)
  | [], k => [(k, 1)]
  | (k', v) :: rest, k =>
    if k' = k then (k', v + 1) :: rest else (k', v) :: mapBump rest k

/-- `padStart(2, '0')`. -/
def padStart2 (s : Str) : Str :=
  if 2 ≤ s.length then s else List.replicate (2 - s.length) '0' ++ s

/-- `sortByHits`: map entries to `{label, hits}` then stable-sort by hits
descending. `numToString` is the host's number-to-string conversion. -/
def sortByHits (numToString : ℚ → Str) (m : List (ℚ × ℕ)) : List FrequencyEntry :=
  (m.map (fun e => FrequencyEntry.mk (padStart2 (numToString e.1)) e.2)).mergeSort
    (fun a b => decide (b.hits ≤ a.hits))

/-- The aggregates memo body: frequency tables, rankings and the average
main-ball sum used by the summary cards. -/
def aggregates (numToString : ℚ → Str) (draws : List Draw) : Aggregates :=
  if draws.isEmpty then
    ⟨0, none, [], [], none, none, none⟩
  else
    let mainFrequency :=
      draws.foldl (fun m d => d.mainNumbers.foldl mapBump m) []
    let powerballFrequency :=
      draws.foldl (fun m d =>
        match d.powerball with
        | some p => mapBump m p
        | none => m) []
    let multiplierFrequency : List (Option ℚ × ℕ) :=
      draws.foldl (fun m d =>
        match d.multiplier with
        | some v => mapBump m v
        | none => m) []
    let mainSumTotal := draws.foldl (fun s d => s + d.mainSum) 0
    let rankedMain := sortByHits numToString mainFrequency
    let rankedPowerball := sortByHits numToString powerballFrequency
    let rankedMultiplier :=
      multiplierFrequency.mergeSort (fun a b => decide (b.2 ≤ a.2))
    ⟨draws.length,
     some (jsRound (mainSumTotal / (draws.length : ℚ))),
     rankedMain.take 15,
     rankedPowerball.take 10,
     rankedMain.head?,
     rankedPowerball.head?,
     (rankedMultiplier.head?).map (fun e => ⟨e.1, e.2⟩)⟩

/-- A concrete host: the `Number` coercion is `jsNumDec`; `new Date` is
modelled on the one ISO date string the concrete inputs use (an ISO
date-only string is parsed as UTC by specification, so its timestamp is
environment-independent); the rendered date label is irrelevant to every
property proved here and is left empty. -/
def demoHost : Host :=
  ⟨fun s => if s = "2020-01-02".data then some 1577923200000 else none,
   fun _ => [],
   jsNumDec⟩

/-- The initial pick `['07', '11', '19', '27', '53']`. -/
def INITIAL_MAIN_PICK : List Str :=
  ["07".data, "11".data, "19".data, "27".data, "53".data]

/-- The initial Powerball pick `'10'`. -/
def INITIAL_POWERBALL_PICK : Str := "10".data

/-- A concrete historical draw with winning numbers `07 11 19 27 53` and
Powerball `10`. -/
def demoDraw : Draw :=
  ⟨1577923200000, [], [7, 11, 19, 27, 53], some 10, some (some 2), 117⟩

/-- CSV text whose single data row carries the non-integer multiplier `2.5`. -/
def multiplierCsvText : Str :=
  ("Draw Date,Winning Numbers,Multiplier\n" ++
   "\"2020-01-02\",\"01 02 03 04 05 06\",\"2.5\"").data

/-- CSV text whose single data row has only three numbers in the
winning-numbers field. -/
def shortRowCsvText : Str :=
  ("Draw Date,Winning Numbers,Multiplier\n" ++
   "\"2020-01-02\",\"01 02 03\",\"\"").data

/-- A data line with an empty date field. -/
def emptyDateLine : Str := "\"\",\"01 02 03 04 05 06\",\"2\"".data

/-- A data line with an empty winning-numbers field. -/
def emptyNumbersLine : Str := "\"2020-01-02\",\"\",\"2\"".data

/-- A data line whose date `new Date` rejects (under `demoHost`). -/
def badDateLine : Str := "\"not-a-date\",\"01 02 03 04 05 06\",\"2\"".data

/-- The data row of `multiplierCsvText` on its own (a well-formed row with
six winning numbers and multiplier field `2.5`). -/
def multiplierCsvRow : Str := "\"2020-01-02\",\"01 02 03 04 05 06\",\"2.5\"".data

/-- A pick whose first two main-number inputs are both `"07"`. -/
def dupMainPick : List Str :=
  ["07".data, "07".data, "19".data, "27".data, "53".data]

/-! ## Helper lemmas -/

/-- Sorting a one-element list returns it unchanged. -/
theorem mergeSort_single {α : Type} (le : α → α → Bool) (a : α) :
    [a].mergeSort le = [a] :=
  List.perm_singleton.mp (List.mergeSort_perm [a] le)

/-- Membership in the parse output is membership in the pre-sort rows. -/
theorem mem_parseCsv {H : Host} {text : Str} {r : Draw} :
    r ∈ parseCsv H text ↔ r ∈ parsedRows H text :=
  (List.mergeSort_perm (parsedRows H text) drawLe).mem_iff

/-- The date comparator's relation is transitive. -/
theorem drawLe_trans (a b c : Draw) (hab : drawLe a b = true) (hbc : drawLe b c = true) :
    drawLe a c = true := by
  simp only [drawLe, decide_eq_true_eq] at *
  omega

/-- The date comparator's relation is total. -/
theorem drawLe_total (a b : Draw) : (drawLe a b || drawLe b a) = true := by
  simp only [drawLe, Bool.or_eq_true, decide_eq_true_eq]
  omega

/-- After clamping into `[MAIN_RANGE.min, max]`, flooring and truncation
toward zero agree (they only differ on negative non-integers, which clamp
to the lower bound either way). -/
theorem clamp_floor_eq_trunc (mx : ℤ) (q : ℚ) :
    max MAIN_RANGE.lo (min mx ⌊q⌋) = max MAIN_RANGE.lo (min mx (jsTrunc q)) := by
  unfold jsTrunc
  by_cases hq : q < 0
  · rw [if_pos hq]
    have h1 : ⌊q⌋ ≤ 0 := Int.floor_nonpos hq.le
    have h2 : ⌈q⌉ ≤ 0 := Int.ceil_le.mpr (by exact_mod_cast hq.le)
    have h3 : min mx ⌊q⌋ ≤ MAIN_RANGE.lo :=
      le_trans (le_trans (min_le_right _ _) h1) (by norm_num [MAIN_RANGE])
    have h4 : min mx ⌈q⌉ ≤ MAIN_RANGE.lo :=
      le_trans (le_trans (min_le_right _ _) h2) (by norm_num [MAIN_RANGE])
    rw [max_eq_left h3, max_eq_left h4]
  · rw [if_neg hq]

/-- Folding addition of `mainSum` equals the sum of the mapped list. -/
theorem foldl_add_mainSum (l : List Draw) (a : ℚ) :
    l.foldl (fun s d => s + d.mainSum) a = a + (l.map Draw.mainSum).sum := by
  induction l generalizing a with
  | nil => simp
  | cons d t ih => simp [ih, add_assoc]

/-! ## Claims -/

/-- **C2**: for every CSV input text (and any host date/number functions),
the record sequence returned by `parseCsv` is sorted non-decreasing by
`dateMs`, whatever the order of the input rows. -/
theorem parseCsv_sorted_by_dateMs (H : Host) (text : Str) :
    (parseCsv H text).Pairwise (fun a b => a.dateMs ≤ b.dateMs) := by
  have h := List.sorted_mergeSort drawLe_trans drawLe_total (parsedRows H text)
  exact h.imp (fun hab => by simpa [drawLe] using hab)

/-- **C10**: with an empty parsed record sequence the picker evaluation is
never ready, whatever the pick inputs are. -/
theorem picker_requires_history (num : Str → Option ℚ) (mainPick : List Str) (pbPick : Str) :
    (pickAnalysis num [] mainPick pbPick).ready = false := by
  have h : readyFlag num [] mainPick pbPick = false := by
    simp [readyFlag]
  simp [pickAnalysis, h]

/-- **C6**: the input clamp maps the empty string to itself, a string whose
`Number` value is non-finite to the empty string, and any other string to
the decimal representation of its value truncated toward zero and clamped
into `[1, max]`; in particular `clamp("70", 69) = "69"`,
`clamp("-3", 69) = "1"` and non-numeric input yields `""`. -/
theorem clampInput_spec :
    (∀ (num : Str → Option ℚ) (mx : ℤ), clampInput num [] mx = []) ∧
    (∀ (num : Str → Option ℚ) (rawValue : Str) (mx : ℤ),
      num rawValue = none → clampInput num rawValue mx = []) ∧
    (∀ (num : Str → Option ℚ) (rawValue : Str) (mx : ℤ) (q : ℚ),
      rawValue ≠ [] → num rawValue = some q →
      clampInput num rawValue mx =
        (toString (max MAIN_RANGE.lo (min mx (jsTrunc q)))).data) ∧
    clampInput jsNumDec "70".data 69 = "69".data ∧
    clampInput jsNumDec "-3".data 69 = "1".data ∧
    clampInput jsNumDec "abc".data 69 = [] := by
  refine ⟨fun _ _ => rfl, ?_, ?_, by decide, by decide, by decide⟩
  · intro num rawValue mx h
    by_cases hraw : rawValue = []
    · simp [clampInput, hraw]
    · simp [clampInput, hraw, h]
  · intro num rawValue mx q hraw hq
    simp [clampInput, hraw, hq, clamp_floor_eq_trunc]

/-- Witness for **C6** at the concrete input `"-3"` with max `69`. -/
theorem clampInput_spec_witness :
    ("-3".data ≠ ([] : Str)) ∧ jsNumDec "-3".data = some (-3 : ℚ) ∧
    clampInput jsNumDec "-3".data 69 =
      (toString (max MAIN_RANGE.lo (min 69 (jsTrunc (-3 : ℚ))))).data :=
  ⟨by decide, by decide,
   clampInput_spec.2.2.1 jsNumDec "-3".data 69 (-3) (by decide) (by decide)⟩

/-- **C7**: aggregating an empty record sequence yields zero total draws, a
`null` average, `null` "most common" fields and empty ranked lists (the
model is a total function, so no exception can arise); for a non-empty
sequence the average main sum is the arithmetic mean of `mainSum`, rounded
half-up (`Math.round`). -/
theorem aggregates_empty_and_mean :
    (∀ numToString : ℚ → Str,
      aggregates numToString [] = ⟨0, none, [], [], none, none, none⟩) ∧
    (∀ (numToString : ℚ → Str) (draws : List Draw), draws ≠ [] →
      (aggregates numToString draws).averageMainSum =
        some (jsRound ((draws.map Draw.mainSum).sum / (draws.length : ℚ)))) := by
  constructor
  · intro f
    rfl
  · intro f draws h
    have hne : draws.isEmpty = false := by
      rw [Bool.eq_false_iff]
      simpa [List.isEmpty_iff] using h
    simp [aggregates, hne, foldl_add_mainSum]

/-- Witness for **C7** on a one-record history. -/
theorem aggregates_empty_and_mean_witness :
    (([demoDraw] : List Draw) ≠ []) ∧
    (aggregates (fun _ => []) [demoDraw]).averageMainSum =
      some (jsRound ((([demoDraw].map Draw.mainSum).sum) / (([demoDraw] : List Draw).length : ℚ))) :=
  ⟨by simp, aggregates_empty_and_mean.2 (fun _ => []) [demoDraw] (by simp)⟩

/-- When `ready` holds, `pickAnalysis` returns the annotated, filtered and
ranked result. -/
theorem pickAnalysis_ready_eq (num : Str → Option ℚ) (draws : List Draw)
    (mainPick : List Str) (pbPick : Str)
    (h : readyFlag num draws mainPick pbPick = true) :
    pickAnalysis num draws mainPick pbPick =
      ⟨true, false, false, false,
       (annotatedHistory num draws mainPick pbPick).filter
         (fun d => d.mainMatches == 5 && d.powerballMatch),
       ((annotatedHistory num draws mainPick pbPick).mergeSort rankLe).take 3,
       numericMainOf num mainPick, num pbPick⟩ := by
  simp [pickAnalysis, h]

/-- When `ready` fails, `pickAnalysis` returns the failure flags and empty
match lists. -/
theorem pickAnalysis_not_ready_eq (num : Str → Option ℚ) (draws : List Draw)
    (mainPick : List Str) (pbPick : Str)
    (h : readyFlag num draws mainPick pbPick = false) :
    pickAnalysis num draws mainPick pbPick =
      ⟨false, hasDuplicatesFlag num mainPick, !hasFullSetFlag num mainPick,
       !validPowerballFlag num pbPick, [], [], numericMainOf num mainPick,
       if validPowerballFlag num pbPick then num pbPick else none⟩ := by
  simp [pickAnalysis, h]

/-- The ranking comparator's relation spelled out as a proposition. -/
theorem rankLe_eq_true_iff (a b : AnnotatedDraw) :
    rankLe a b = true ↔
      (b.mainMatches < a.mainMatches ∨
       (a.mainMatches = b.mainMatches ∧
        ((b.powerballMatch = false ∧ a.powerballMatch = true) ∨
         (a.powerballMatch = b.powerballMatch ∧ b.dateMs ≤ a.dateMs)))) := by
  unfold rankLe
  by_cases h1 : a.mainMatches = b.mainMatches
  · by_cases h2 : a.powerballMatch = b.powerballMatch
    · simp [h1, h2]
    · cases ha : a.powerballMatch <;> cases hb : b.powerballMatch <;> simp_all
  · simp [h1]

/-- The best-draws ranking relation is transitive. -/
theorem rankLe_trans (a b c : AnnotatedDraw) (hab : rankLe a b = true)
    (hbc : rankLe b c = true) : rankLe a c = true := by
  rw [rankLe_eq_true_iff] at hab hbc ⊢
  cases hA : a.powerballMatch <;> cases hB : b.powerballMatch <;>
    cases hC : c.powerballMatch <;> simp_all <;> omega

/-- The best-draws ranking relation is total. -/
theorem rankLe_total (a b : AnnotatedDraw) : (rankLe a b || rankLe b a) = true := by
  simp only [Bool.or_eq_true, rankLe_eq_true_iff]
  cases hA : a.powerballMatch <;> cases hB : b.powerballMatch <;> simp_all <;> omega

/-- **C1**: for a valid pick, a record is a jackpot hit exactly when its
annotation has all five main matches and the Powerball match, over any
history; in particular the pick `07 11 19 27 53` + `10` scores at least
one jackpot hit against a history containing that exact draw. -/
theorem jackpotHits_exactly_matching :
    (∀ (num : Str → Option ℚ) (draws : List Draw) (mainPick : List Str) (pbPick : Str),
      validPickFlag num mainPick pbPick = true →
      ∀ r, r ∈ (pickAnalysis num draws mainPick pbPick).jackpotHits ↔
        (r ∈ annotatedHistory num draws mainPick pbPick ∧
         r.mainMatches = 5 ∧ r.powerballMatch = true)) ∧
    1 ≤ (pickAnalysis jsNumDec [demoDraw] INITIAL_MAIN_PICK
          INITIAL_POWERBALL_PICK).jackpotHits.length := by
  constructor
  · intro num draws mainPick pbPick h r
    by_cases hd : draws = []
    · subst hd
      have hr : readyFlag num [] mainPick pbPick = false := by simp [readyFlag]
      rw [pickAnalysis_not_ready_eq _ _ _ _ hr]
      simp [annotatedHistory]
    · have hr : readyFlag num draws mainPick pbPick = true := by
        simp only [readyFlag, h, Bool.true_and, decide_eq_true_eq]
        exact List.length_pos.mpr hd
      rw [pickAnalysis_ready_eq _ _ _ _ hr]
      simp [List.mem_filter, and_assoc]
  · decide

/-- Witness for **C1**: the demo pick is valid and the matching draw's
annotation is a member of the jackpot hits. -/
theorem jackpotHits_exactly_matching_witness :
    validPickFlag jsNumDec INITIAL_MAIN_PICK INITIAL_POWERBALL_PICK = true ∧
    (annotateDraw (numericMainOf jsNumDec INITIAL_MAIN_PICK)
        (jsNumDec INITIAL_POWERBALL_PICK) demoDraw)
      ∈ (pickAnalysis jsNumDec [demoDraw] INITIAL_MAIN_PICK
          INITIAL_POWERBALL_PICK).jackpotHits := by
  refine ⟨by decide, ?_⟩
  refine ((jackpotHits_exactly_matching.1 jsNumDec [demoDraw] INITIAL_MAIN_PICK
    INITIAL_POWERBALL_PICK (by decide)) _).mpr ⟨?_, by decide, by decide⟩
  simp [annotatedHistory]

/-- **C4**: for a valid pick, `bestDraws` is the 3-element prefix of the
annotated history sorted by the ranking (main matches descending, then
Powerball match, then recency); that sorted list is a permutation of the
annotated history and is sorted under the ranking relation, and
`bestDraws` has `min 3 n` records for an `n`-record history. -/
theorem bestDraws_top3 (num : Str → Option ℚ) (draws : List Draw)
    (mainPick : List Str) (pbPick : Str)
    (h : validPickFlag num mainPick pbPick = true) :
    (pickAnalysis num draws mainPick pbPick).bestDraws =
      ((annotatedHistory num draws mainPick pbPick).mergeSort rankLe).take 3 ∧
    ((annotatedHistory num draws mainPick pbPick).mergeSort rankLe).Perm
      (annotatedHistory num draws mainPick pbPick) ∧
    ((annotatedHistory num draws mainPick pbPick).mergeSort rankLe).Pairwise
      (fun a b => rankLe a b = true) ∧
    (pickAnalysis num draws mainPick pbPick).bestDraws.length = min 3 draws.length := by
  have hperm := List.mergeSort_perm (annotatedHistory num draws mainPick pbPick) rankLe
  have hsorted := List.sorted_mergeSort rankLe_trans rankLe_total
    (annotatedHistory num draws mainPick pbPick)
  by_cases hd : draws = []
  · subst hd
    have hr : readyFlag num [] mainPick pbPick = false := by simp [readyFlag]
    rw [pickAnalysis_not_ready_eq _ _ _ _ hr]
    refine ⟨by simp [annotatedHistory], hperm, hsorted, by simp⟩
  · have hr : readyFlag num draws mainPick pbPick = true := by
      simp only [readyFlag, h, Bool.true_and, decide_eq_true_eq]
      exact List.length_pos.mpr hd
    rw [pickAnalysis_ready_eq _ _ _ _ hr]
    refine ⟨rfl, hperm, hsorted, ?_⟩
    simp [List.length_take, List.length_mergeSort, annotatedHistory]

/-- Witness for **C4** on a one-record history. -/
theorem bestDraws_top3_witness :
    validPickFlag jsNumDec INITIAL_MAIN_PICK INITIAL_POWERBALL_PICK = true ∧
    (pickAnalysis jsNumDec [demoDraw] INITIAL_MAIN_PICK
        INITIAL_POWERBALL_PICK).bestDraws.length = min 3 ([demoDraw] : List Draw).length :=
  ⟨by decide,
   (bestDraws_top3 jsNumDec [demoDraw] INITIAL_MAIN_PICK INITIAL_POWERBALL_PICK
     (by decide)).2.2.2⟩

/-- A value that two pick inputs share (and that parses into range) forces
the duplicate flag. -/
theorem hasDuplicatesFlag_of_repeated (num : Str → Option ℚ) (mainPick : List Str)
    (s : Str) (q : ℚ) (hc : List.Duplicate s mainPick) (hq : num s = some q)
    (hlo : (MAIN_RANGE.lo : ℚ) ≤ q) (hhi : q ≤ (MAIN_RANGE.hi : ℚ)) :
    hasDuplicatesFlag num mainPick = true := by
  have hsub : [s, s].Sublist mainPick := List.duplicate_iff_sublist.mp hc
  have hsub2 : List.Sublist (List.filterMap (fun value =>
      match num value with
      | some numeric =>
        if (MAIN_RANGE.lo : ℚ) ≤ numeric ∧ numeric ≤ (MAIN_RANGE.hi : ℚ) then some numeric
        else none
      | none => none) [s, s]) (numericMainOf num mainPick) := by
    unfold numericMainOf
    exact hsub.filterMap _
  have heval : List.filterMap (fun value =>
      match num value with
      | some numeric =>
        if (MAIN_RANGE.lo : ℚ) ≤ numeric ∧ numeric ≤ (MAIN_RANGE.hi : ℚ) then some numeric
        else none
      | none => none) [s, s] = [q, q] := by
    simp [hq, hlo, hhi]
  rw [heval] at hsub2
  have hcount : 2 ≤ List.count q (numericMainOf num mainPick) := by
    have h2 := hsub2.count_le q
    simpa using h2
  have hnotnodup : ¬ (numericMainOf num mainPick).Nodup := by
    intro hnd
    have h1 := List.nodup_iff_count_le_one.mp hnd q
    omega
  unfold hasDuplicatesFlag
  rw [bne_iff_ne]
  intro hlen
  refine hnotnodup ?_
  have hsubd := List.dedup_sublist (numericMainOf num mainPick)
  rw [← hsubd.eq_of_length hlen]
  exact List.nodup_dedup _

/-- **C5**: a pick whose inputs repeat an in-range value is never ready and
always reports `hasDuplicates`, whatever the Powerball input; and whenever
an invalidity flag is set, exactly one status message is surfaced, with
duplicates taking precedence over the missing-count message, which takes
precedence over the Powerball message. -/
theorem duplicate_pick_rejected :
    (∀ (num : Str → Option ℚ) (draws : List Draw) (mainPick : List Str) (pbPick : Str)
        (s : Str) (q : ℚ),
      List.Duplicate s mainPick → num s = some q →
      (MAIN_RANGE.lo : ℚ) ≤ q → q ≤ (MAIN_RANGE.hi : ℚ) →
      (pickAnalysis num draws mainPick pbPick).ready = false ∧
      (pickAnalysis num draws mainPick pbPick).hasDuplicates = true ∧
      pickStatusMessage (pickAnalysis num draws mainPick pbPick) = some msgDuplicates) ∧
    (∀ (num : Str → Option ℚ) (draws : List Draw) (mainPick : List Str) (pbPick : Str),
      ((pickAnalysis num draws mainPick pbPick).hasDuplicates = true ∨
       (pickAnalysis num draws mainPick pbPick).missingMain = true ∨
       (pickAnalysis num draws mainPick pbPick).invalidPowerball = true) →
      pickStatusMessage (pickAnalysis num draws mainPick pbPick) =
        some (if (pickAnalysis num draws mainPick pbPick).hasDuplicates then msgDuplicates
              else if (pickAnalysis num draws mainPick pbPick).missingMain then msgMissingMain
              else msgInvalidPowerball)) := by
  constructor
  · intro num draws mainPick pbPick s q hc hq hlo hhi
    have hflag := hasDuplicatesFlag_of_repeated num mainPick s q hc hq hlo hhi
    have hready : readyFlag num draws mainPick pbPick = false := by
      simp [readyFlag, validPickFlag, hflag]
    rw [pickAnalysis_not_ready_eq _ _ _ _ hready]
    exact ⟨rfl, hflag, by simp [pickStatusMessage, hflag]⟩
  · intro num draws mainPick pbPick hflags
    by_cases hr : readyFlag num draws mainPick pbPick = true
    · rw [pickAnalysis_ready_eq _ _ _ _ hr] at hflags
      simp at hflags
    · rw [pickAnalysis_not_ready_eq _ _ _ _ (Bool.not_eq_true _ ▸ hr)] at hflags ⊢
      cases hdv : hasDuplicatesFlag num mainPick <;>
        cases hfv : hasFullSetFlag num mainPick <;>
        cases hvv : validPowerballFlag num pbPick <;>
        simp_all [pickStatusMessage]

/-- Witness for **C5**: the pick `07 07 19 27 53` with an empty Powerball
input is rejected for duplicates. -/
theorem duplicate_pick_rejected_witness :
    List.Duplicate "07".data dupMainPick ∧
    (pickAnalysis jsNumDec [] dupMainPick "".data).ready = false ∧
    (pickAnalysis jsNumDec [] dupMainPick "".data).hasDuplicates = true ∧
    pickStatusMessage (pickAnalysis jsNumDec [] dupMainPick "".data) = some msgDuplicates := by
  have hdup : List.Duplicate "07".data dupMainPick :=
    List.duplicate_iff_two_le_count.mpr (by decide)
  have h := duplicate_pick_rejected.1 jsNumDec [] dupMainPick "".data "07".data
    (((7 : ℤ) : ℚ)) hdup (by decide) (by decide) (by decide)
  exact ⟨hdup, h.1, h.2.1, h.2.2⟩

/-- A row with an empty date field, an empty winning-numbers field, or a
date the host rejects, parses to `null`. -/
theorem parseRow_drops (H : Host) (line : Str)
    (h : rawDateField line = [] ∨ winningField line = [] ∨
         H.parseDate (rawDateField line) = none) :
    parseRow H line = none := by
  unfold parseRow
  by_cases h1 : rawDateField line = [] ∨ winningField line = []
  · simp [h1]
  · rcases h with h | h | h
    · exact absurd (Or.inl h) h1
    · exact absurd (Or.inr h) h1
    · simp [h1, h]

/-- **C3**: a data row with a missing or unparseable date or an empty
winning-numbers field contributes no record; records are produced whole
(each comes from `parseRow` returning a full record for some data line,
never partially); and the output never has more records than there are
data rows. -/
theorem parse_drops_malformed_rows :
    (∀ (H : Host) (text : Str),
      (parseCsv H text).length ≤ (dataLines text).length) ∧
    (∀ (H : Host) (line : Str),
      rawDateField line = [] ∨ winningField line = [] ∨
        H.parseDate (rawDateField line) = none →
      parseRow H line = none) ∧
    (∀ (H : Host) (text : Str) (r : Draw), r ∈ parseCsv H text →
      ∃ line ∈ (dataLines text).map jsTrim, parseRow H line = some r) := by
  refine ⟨?_, parseRow_drops, ?_⟩
  · intro H text
    have hperm := (List.mergeSort_perm (parsedRows H text) drawLe).length_eq
    have h1 : (parsedRows H text).length ≤
        (((dataLines text).map jsTrim).filter (fun l => !l.isEmpty)).length :=
      List.length_filterMap_le _ _
    have h2 : (((dataLines text).map jsTrim).filter (fun l => !l.isEmpty)).length ≤
        ((dataLines text).map jsTrim).length :=
      List.length_filter_le _ _
    have h3 : ((dataLines text).map jsTrim).length = (dataLines text).length :=
      List.length_map _ _
    calc (parseCsv H text).length
        = (parsedRows H text).length := hperm
      _ ≤ _ := le_trans h1 (le_trans h2 (le_of_eq h3))
  · intro H text r hr
    have hr2 : r ∈ parsedRows H text := mem_parseCsv.mp hr
    unfold parsedRows at hr2
    obtain ⟨line, hline, hparse⟩ := List.mem_filterMap.mp hr2
    exact ⟨line, (List.mem_filter.mp hline).1, hparse⟩

/-- Witness for **C3**: three concretely malformed rows are dropped, and a
one-row file parses to at most one record. -/
theorem parse_drops_malformed_rows_witness :
    (rawDateField emptyDateLine = [] ∧ parseRow demoHost emptyDateLine = none) ∧
    (winningField emptyNumbersLine = [] ∧ parseRow demoHost emptyNumbersLine = none) ∧
    (demoHost.parseDate (rawDateField badDateLine) = none ∧
      parseRow demoHost badDateLine = none) ∧
    (parseCsv demoHost multiplierCsvText).length ≤ (dataLines multiplierCsvText).length := by
  refine ⟨⟨by decide, ?_⟩, ⟨by decide, ?_⟩, ⟨by decide, ?_⟩,
    parse_drops_malformed_rows.1 demoHost multiplierCsvText⟩
  · exact parse_drops_malformed_rows.2.1 demoHost emptyDateLine (Or.inl (by decide))
  · exact parse_drops_malformed_rows.2.1 demoHost emptyNumbersLine (Or.inr (Or.inl (by decide)))
  · exact parse_drops_malformed_rows.2.1 demoHost badDateLine (Or.inr (Or.inr (by decide)))

/-- **C8** (amended): a record's `multiplier` is `null` exactly when the
third field is missing or empty; when the field is present and non-empty
the stored value is the raw `Number` coercion of the field, which need not
be an integer. -/
theorem multiplier_from_field (H : Host) (line : Str) (r : Draw)
    (h : parseRow H line = some r) :
    (r.multiplier = none ↔ (multiplierField line = none ∨ multiplierField line = some [])) ∧
    (∀ v, multiplierField line = some v → v ≠ [] → r.multiplier = some (H.num v)) := by
  unfold parseRow at h
  simp only [] at h
  split at h
  · exact absurd h (by simp)
  · split at h
    · exact absurd h (by simp)
    · split at h
      · exact absurd h (by simp)
      · have hrec := Option.some.inj h
        subst hrec
        constructor
        · cases hm : multiplierField line with
          | none => simp [hm]
          | some v =>
            by_cases hv : v = []
            · simp [hm, hv]
            · simp [hm, hv]
        · intro v hm hv
          simp [hm, hv]

/-- Witness for **C8** (amended) on the row with multiplier field `2.5`. -/
theorem multiplier_from_field_witness :
    (multiplierField multiplierCsvRow = some "2.5".data) ∧
    (parseRow demoHost multiplierCsvRow).map Draw.multiplier =
      some (some (jsNumDec "2.5".data)) := by
  have hs : (parseRow demoHost multiplierCsvRow).isSome = true := by decide
  have hr : parseRow demoHost multiplierCsvRow =
      some ((parseRow demoHost multiplierCsvRow).get hs) := (Option.some_get hs).symm
  have h := (multiplier_from_field demoHost multiplierCsvRow _ hr).2 "2.5".data
    (by decide) (by decide)
  refine ⟨by decide, ?_⟩
  rw [hr, Option.map_some', h]
  rfl

/-- Counterexample for **C8** as frozen: the row with multiplier field
`2.5` produces a record whose `multiplier` is neither `null` nor an
integer. -/
theorem multiplier_not_always_integer :
    ¬ (∀ r ∈ parseCsv demoHost multiplierCsvText,
        r.multiplier = none ∨ ∃ n : ℤ, r.multiplier = some (some (n : ℚ))) := by
  intro hcl
  have hlen : (parsedRows demoHost multiplierCsvText).length = 1 := by decide
  obtain ⟨r, hr⟩ := List.length_eq_one.mp hlen
  have hmem : r ∈ parseCsv demoHost multiplierCsvText := by
    rw [mem_parseCsv, hr]
    exact List.mem_singleton.mpr rfl
  have hmul : r.multiplier = some (some (((25 : ℤ) : ℚ) / (((10 : ℕ) ^ 1 : ℕ) : ℚ))) := by
    have hmap : (parsedRows demoHost multiplierCsvText).map Draw.multiplier =
        [some (some (((25 : ℤ) : ℚ) / (((10 : ℕ) ^ 1 : ℕ) : ℚ)))] := rfl
    rw [hr] at hmap
    simpa using hmap
  rcases hcl r hmem with h | ⟨n, hn⟩
  · rw [hmul] at h
    exact Option.noConfusion h
  · rw [hmul] at hn
    have hq : ((25 : ℤ) : ℚ) / (((10 : ℕ) ^ 1 : ℕ) : ℚ) = (n : ℚ) := by
      have h1 := Option.some.inj hn
      exact Option.some.inj h1
    have h5 : (5 : ℚ) = 2 * (n : ℚ) := by
      push_cast at hq
      field_simp at hq
      linarith
    have h5z : (5 : ℤ) = 2 * n := by exact_mod_cast h5
    omega

/-- **C9** (amended): in every parsed record the Powerball is the last
finite number of the winning-numbers field and `mainNumbers` is the list
of all the preceding ones; `mainNumbers` has exactly 5 entries whenever
the field parses to exactly six numbers (as in the real data format), but
a malformed field yields a different count. -/
theorem mainNumbers_split (H : Host) (line : Str) (r : Draw)
    (h : parseRow H line = some r) :
    r.powerball = (rowNumbers H line).getLast? ∧
    r.mainNumbers = (rowNumbers H line).dropLast ∧
    ((rowNumbers H line).length = 6 → r.mainNumbers.length = 5) := by
  unfold parseRow at h
  simp only [] at h
  split at h
  · exact absurd h (by simp)
  · split at h
    · exact absurd h (by simp)
    · rename_i hnonempty _ _
      split at h
      · exact absurd h (by simp)
      · rename_i hne
        have hrec := Option.some.inj h
        subst hrec
        have hlast : (rowNumbers H line).getLast? ≠ none := by
          rw [ne_eq, List.getLast?_eq_none_iff]
          exact hne
        refine ⟨rfl, by simp [hlast], ?_⟩
        intro h6
        simp [hlast, List.length_dropLast, h6]

/-- Witness for **C9** (amended) on a well-formed six-number row. -/
theorem mainNumbers_split_witness :
    (rowNumbers demoHost multiplierCsvRow).length = 6 ∧
    (parseRow demoHost multiplierCsvRow).map (fun r => r.mainNumbers.length) = some 5 := by
  have hs : (parseRow demoHost multiplierCsvRow).isSome = true := by decide
  have hr : parseRow demoHost multiplierCsvRow =
      some ((parseRow demoHost multiplierCsvRow).get hs) := (Option.some_get hs).symm
  have h := (mainNumbers_split demoHost multiplierCsvRow _ hr).2.2 (by decide)
  refine ⟨by decide, ?_⟩
  rw [hr, Option.map_some', h]

/-- Counterexample for **C9** as frozen: a row whose winning-numbers field
holds only three numbers still produces a record, and its `mainNumbers`
has two entries, not five. -/
theorem mainNumbers_not_always_five :
    ¬ (∀ r ∈ parseCsv demoHost shortRowCsvText,
        r.mainNumbers.length = 5 ∧ ∀ q ∈ r.mainNumbers, ∃ n : ℤ, q = (n : ℚ)) := by
  intro hcl
  have hlen : (parsedRows demoHost shortRowCsvText).length = 1 := by decide
  obtain ⟨r, hr⟩ := List.length_eq_one.mp hlen
  have hmem : r ∈ parseCsv demoHost shortRowCsvText := by
    rw [mem_parseCsv, hr]
    exact List.mem_singleton.mpr rfl
  have hml : r.mainNumbers.length = 2 := by
    have hmap : (parsedRows demoHost shortRowCsvText).map (fun d => d.mainNumbers.length) =
        [2] := by decide
    rw [hr] at hmap
    simpa using hmap
  have h5 := (hcl r hmem).1
  omega
